import Mathlib

/-!
Verification of the adaptive-difficulty and checkpoint-reward wrappers of
`football/vtrace_adaptive_main.py` (a SEED RL fork).

Modelling conventions:
* Python floats are embedded as exact rationals (`ℚ`).  `np.around(x, decimals=8)`
  becomes `round8` below; for the reward-shaping arithmetic the intermediate
  `np.float32` casts are value-preserving on the traces considered and are
  dropped.  Where the float32 quantization itself decides a claim (the
  budget-1000 magnitude decay), the `Fp` model below embeds IEEE-754
  binary32/binary64 arithmetic exactly, bit for bit.
* The Euclidean distance `d = sqrt((x-1)^2 + y^2)` is compared against a
  threshold `t` with `t ≥ 0.19 > 0`, so `d > t ↔ d² > t²`; the embedding stores
  and compares the squared distance to stay inside `ℚ`.
* Python dicts with `.get(k, 0)` defaults are embedded as association lists with
  a defaulting lookup; `deque(maxlen=3)` as a list whose push drops the front
  beyond length 3.
-/

/-- State of `DifficultyWrapper`: `difficulty` (`self.difficulty`),
`raw_rewards` (`self.raw_rewards`, a `deque(maxlen=3)`, front = oldest), and
`raw_reward` (`self.raw_reward`, the running episode accumulator). -/
structure DifficultyState where
  difficulty : ℚ
  raw_rewards : List ℚ
  raw_reward : ℚ
  deriving DecidableEq, Repr

/-- `deque(maxlen=3).append x`: append at the back, dropping from the front
whenever the length would exceed 3. -/
def dequePush3 (xs : List ℚ) (x : ℚ) : List ℚ :=
  let ys := xs ++ [x]
  ys.drop (ys.length - 3)

/-- `DifficultyWrapper.step` (state part): accumulate `info['score_reward']`
into `raw_reward`; on `done`, append the accumulator to the window and, when
the window has exactly 3 entries with mean ≥ 1.1, bump `difficulty` by 0.001
(clamped above at 1.0) and clear the window.  The accumulator itself is not
touched on `done` (it is zeroed by `reset`). -/
def DifficultyWrapper.step (s : DifficultyState) (score_reward : ℚ)
    (done : Bool) : DifficultyState :=
  let acc := s.raw_reward + score_reward
  if done then
    let window := dequePush3 s.raw_rewards acc
    if window.length = 3 ∧ (11 : ℚ)/10 ≤ window.sum / 3 then
      let d := s.difficulty + 1/1000
      { difficulty := if 1 < d then 1 else d
        raw_rewards := []
        raw_reward := acc }
    else
      { s with raw_rewards := window, raw_reward := acc }
  else
    { s with raw_reward := acc }

/-- `DifficultyWrapper.reset` (state part): zero the episode accumulator.
The configuration-injection part is modelled separately by
`DifficultyWrapper.resetEnv`. -/
def DifficultyWrapper.reset (s : DifficultyState) : DifficultyState :=
  { s with raw_reward := 0 }

/-- One operation applied to a `DifficultyWrapper`. -/
inductive DiffOp where
  | step (score_reward : ℚ) (done : Bool)
  | reset
  deriving DecidableEq, Repr

/-- Apply one operation. -/
def applyOp (s : DifficultyState) : DiffOp → DifficultyState
  | .step r d => DifficultyWrapper.step s r d
  | .reset => DifficultyWrapper.reset s

/-- Apply a sequence of operations, first element first. -/
def applyOps (s : DifficultyState) (ops : List DiffOp) : DifficultyState :=
  ops.foldl applyOp s

/-- Scenario configuration: the single field this code touches, plus an opaque
remainder standing for all other scenario settings. -/
structure ScenarioConfig (ρ : Type) where
  right_team_difficulty : ℚ
  rest : ρ

/-- Base-environment state visible to the wrapper: the live scenario config. -/
structure EnvState (ρ : Type) where
  config : ScenarioConfig ρ

/-- The base environment's `reset`: rebuilds the scenario by running the
currently-installed `build_scenario` on the builder's config, then starts the
episode with the resulting config. -/
def baseReset (ρ : Type) (build : ScenarioConfig ρ → ScenarioConfig ρ)
    (e : EnvState ρ) : EnvState ρ :=
  { config := build e.config }

/-- `DifficultyWrapper.reset` including configuration injection: it installs a
patched `build_scenario` that first runs the original builder and then writes
`self.difficulty` into `right_team_difficulty`, and only then invokes the
underlying reset, which runs that patched builder. -/
def DifficultyWrapper.resetEnv (ρ : Type)
    (origBuild : ScenarioConfig ρ → ScenarioConfig ρ) (s : DifficultyState)
    (e : EnvState ρ) : DifficultyState × EnvState ρ :=
  let patched := fun cfg => { origBuild cfg with right_team_difficulty := s.difficulty }
  ({ s with raw_reward := 0 }, baseReset ρ patched e)

/-- `self._collected_checkpoints`: Python dict from agent index to collected
count, embedded as an association list (later bindings never duplicate keys). -/
abbrev AgentMap : Type := List (ℕ × ℕ)

/-- `m.get(i, 0)`: defaulting dict lookup. -/
def mapGetD (m : AgentMap) (i : ℕ) : ℕ :=
  match m.find? (fun p => p.1 == i) with
  | some p => p.2
  | none => 0

/-- `m[i] = v`: dict assignment (replace if present, append otherwise). -/
def mapSet (m : AgentMap) (i v : ℕ) : AgentMap :=
  if m.any (fun p => p.1 == i) then
    m.map (fun p => if p.1 == i then (i, v) else p)
  else
    m ++ [(i, v)]

theorem find?_mapSet (m : AgentMap) (i v : ℕ) :
    (mapSet m i v).find? (fun p => p.1 == i) = some (i, v) := by
  unfold mapSet
  split
  next h =>
    induction m with
    | nil => simp at h
    | cons p t ih =>
      by_cases hp : p.1 = i
      · simp [hp]
      · have hpb : (p.1 == i) = false := beq_eq_false_iff_ne.mpr hp
        simp only [List.any_cons, hpb, Bool.false_or] at h
        simp only [List.map_cons, hpb, Bool.false_eq_true, if_false]
        rw [List.find?_cons_of_neg _ (by simp [hpb])]
        exact ih h
  next h =>
    induction m with
    | nil => simp
    | cons p t ih =>
      simp only [List.any_cons, Bool.or_eq_true, not_or, Bool.not_eq_true] at h
      simp only [List.cons_append]
      rw [List.find?_cons_of_neg _ (by simp [h.1])]
      exact ih (by simp [h.2])

theorem mapGetD_mapSet (m : AgentMap) (i v : ℕ) : mapGetD (mapSet m i v) i = v := by
  unfold mapGetD
  rw [find?_mapSet]

/-- One per-agent observation; `ball_owned_team` / `ball_owned_player` are
`none` when the key is absent from the Python dict. -/
structure Obs where
  ball : ℚ × ℚ
  ball_owned_team : Option ℤ
  ball_owned_player : Option ℤ
  active : ℤ

/-- Squared Euclidean distance from the ball to the opponent goal `(1, 0)`;
the code computes `d = ((x-1)**2 + y**2)**0.5` and only ever compares it with
nonnegative thresholds, so the square is compared instead. -/
def dist_sq (ball : ℚ × ℚ) : ℚ :=
  (ball.1 - 1)^2 + ball.2^2

/-- The distance threshold for the `collected`-th checkpoint:
`0.99 - 0.8` when `_num_checkpoints == 1`, otherwise
`0.99 - 0.8 / (_num_checkpoints - 1) * collected`. -/
def threshold (num_checkpoints collected : ℕ) : ℚ :=
  if num_checkpoints = 1 then 99/100 - 8/10
  else 99/100 - (8/10) / ((num_checkpoints : ℚ) - 1) * (collected : ℚ)

/-- Eligibility check of `reward` (lines 150–153): the observation must carry
both ownership keys, `ball_owned_team` must be `0` and `ball_owned_player`
must equal `active`. -/
def eligible (o : Obs) : Bool :=
  match o.ball_owned_team, o.ball_owned_player with
  | some t, some p => t == 0 && p == o.active
  | _, _ => false

/-- State of `CustomCheckpointRewardWrapper`:
`collected` is `self._collected_checkpoints`, `num_checkpoints` is
`self._num_checkpoints` (10), `checkpoint_reward` is `self.checkpoint_reward`
and `epsilon` is `self.epsilon`. -/
structure CheckpointState where
  collected : AgentMap
  num_checkpoints : ℕ
  checkpoint_reward : ℚ
  epsilon : ℚ
  deriving DecidableEq, Repr

/-- `CustomCheckpointRewardWrapper.__init__`: empty progress dict, 10
checkpoints, reward magnitude 0.1, linear decay step `0.1 / checkpoint_num_episodes`. -/
def CustomCheckpointRewardWrapper.init (checkpoint_num_episodes : ℕ) : CheckpointState :=
  { collected := []
    num_checkpoints := 10
    checkpoint_reward := 1/10
    epsilon := (1/10) / (checkpoint_num_episodes : ℚ) }

/-- `np.around(x, decimals=8)`: round to the nearest multiple of `10⁻⁸`
(ties played by `round`; every value this development rounds is never at a
tie, so the tie rule is immaterial). -/
def round8 (x : ℚ) : ℚ :=
  ((round (x * 10^8) : ℤ) : ℚ) / 10^8

/-- `CustomCheckpointRewardWrapper.reset` (wrapper-state part): clear the
progress dict; while the magnitude is still positive, subtract `epsilon` and
round to 8 decimals (there is no floor at 0 here); a non-positive magnitude is
replaced by `0.0`. -/
def CustomCheckpointRewardWrapper.reset (s : CheckpointState) : CheckpointState :=
  { s with
    collected := []
    checkpoint_reward :=
      if 0 < s.checkpoint_reward then round8 (s.checkpoint_reward - s.epsilon)
      else 0 }

/-- The `while` loop of `reward` (lines 160–171): while the agent's collected
count is below `num`, stop as soon as the (squared) distance exceeds the
(squared) current threshold, otherwise add `cr` to the pending bonus, bump the
dict entry and loop. Returns the accumulated bonus and the updated dict. -/
def collectLoop (num : ℕ) (cr dsq : ℚ) (m : AgentMap) (i : ℕ) (acc : ℚ) : ℚ × AgentMap :=
  if mapGetD m i < num then
    if (threshold num (mapGetD m i))^2 < dsq then (acc, m)
    else collectLoop num cr dsq (mapSet m i (mapGetD m i + 1)) i (acc + cr)
  else (acc, m)
termination_by num - mapGetD m i
decreasing_by
  rw [mapGetD_mapSet]
  omega

/-- The body of `reward`'s per-agent loop for agent `i` with raw reward `r`
and observation `o`: a raw reward of exactly 1 fast-forwards all remaining
checkpoints; otherwise an eligible agent runs the collection loop; an
ineligible agent is untouched. Returns the shaped reward and the updated
progress dict. -/
def rewardAgent (s : CheckpointState) (i : ℕ) (r : ℚ) (o : Obs) : ℚ × AgentMap :=
  if r = 1 then
    (r + s.checkpoint_reward * ((s.num_checkpoints : ℚ) - (mapGetD s.collected i : ℚ)),
      mapSet s.collected i s.num_checkpoints)
  else if eligible o then
    collectLoop s.num_checkpoints s.checkpoint_reward (dist_sq o.ball) s.collected i r
  else
    (r, s.collected)

/-- `CustomCheckpointRewardWrapper.reward`: wrap the scalar into a one-element
list, return it unchanged when `observation()` is `None`, then
`assert len(reward) == len(observation)` (`none` models the assertion
failing) and run the per-agent body on index 0, the only index of the
one-element reward list. -/
def CustomCheckpointRewardWrapper.reward (s : CheckpointState) (r : ℚ)
    (observation : Option (List Obs)) : Option (ℚ × AgentMap) :=
  match observation with
  | none => some (r, s.collected)
  | some obs =>
    if h : obs.length = 1 then
      some (rewardAgent s 0 r (obs.get ⟨0, by omega⟩))
    else
      none

/-- A pickling container: the wrapper's fixed `'CheckpointRewardWrapper'`
slot plus whatever the base environment serializes (opaque `σ`). -/
structure StateContainer (σ : Type) where
  wrapperEntry : Option AgentMap
  base : σ

/-- `get_state(to_pickle)`: write the progress dict into the fixed slot, then
hand the container to the base environment (which only touches its own part). -/
def CustomCheckpointRewardWrapper.get_state (σ : Type) (baseGet : σ → σ)
    (s : CheckpointState) (to_pickle : StateContainer σ) : StateContainer σ :=
  let c := { to_pickle with wrapperEntry := some s.collected }
  { c with base := baseGet c.base }

/-- `set_state(state)`: let the base environment consume its part first, then
read the progress dict back out of the fixed slot (`none` models the
`KeyError` when the slot is absent). -/
def CustomCheckpointRewardWrapper.set_state (σ : Type) (baseSet : σ → σ)
    (s : CheckpointState) (st : StateContainer σ) :
    Option (CheckpointState × StateContainer σ) :=
  let from_pickle := { st with base := baseSet st.base }
  match from_pickle.wrapperEntry with
  | some m => some ({ s with collected := m }, from_pickle)
  | none => none

/-! ### Exact IEEE-754 model of the magnitude decay

`reset` (line 117) computes `np.around(np.float32(cr - eps), decimals=8)`.
The float32 unit in the last place near 0.1 (about 7.45e-9) is comparable to
the 1e-8 rounding grain, so the float32 quantization changes the decay
sequence and must be modelled exactly for claims about it.  A float is an
exact dyadic `m · 2^e`; rounding is IEEE-754 round-to-nearest, ties to even,
with a 24-bit (float32) or 53-bit (float64) significand and unbounded
exponent — harmless here, since every value of the modelled trace is normal
and far from overflow or underflow. -/

/-- Bit length of a natural number, fuel-driven to stay structural (the fuel
400 far exceeds every intermediate width in this development). -/
def bitlen : ℕ → ℕ → ℕ
  | 0, _ => 0
  | fuel + 1, n => if n = 0 then 0 else bitlen fuel (n / 2) + 1

/-- An exact binary floating-point value `m · 2^e`. -/
structure Fp where
  m : ℤ
  e : ℤ
  deriving DecidableEq, Repr

/-- The rational value of a floating-point number. -/
def Fp.toRat (x : Fp) : ℚ := (x.m : ℚ) * (2 : ℚ)^x.e

/-- Round the positive rational `a / b` to a `p`-bit significand, nearest,
ties to even: returns `(n, g)` with value `n · 2^g` and `2^(p-1) ≤ n < 2^p`. -/
def roundPos (p a b : ℕ) : ℕ × ℤ :=
  let S := p + bitlen 400 b + 2
  let q0 := (a * 2^S) / b
  let k : ℤ := (bitlen 400 q0 : ℤ) - 1 - (S : ℤ)
  let j : ℤ := (p : ℤ) - 1 - k
  let num := if 0 ≤ j then a * 2^(j.toNat) else a
  let den := if 0 ≤ j then b else b * 2^((-j).toNat)
  let q := num / den
  let r := num % den
  let n := if den < 2*r then q + 1 else if 2*r < den then q
    else (if q % 2 = 0 then q else q + 1)
  if n = 2^p then (2^(p-1), k + 2 - (p : ℤ)) else (n, k + 1 - (p : ℤ))

/-- Round the rational `a / b` (`b > 0`) to a `p`-bit binary float.  `p = 24`
is IEEE-754 binary32 (`np.float32`), `p = 53` is binary64 (Python float). -/
def roundRat (p : ℕ) (a : ℤ) (b : ℕ) : Fp :=
  if a = 0 then ⟨0, 0⟩
  else
    let ng := roundPos p a.natAbs b
    if 0 ≤ a then ⟨(ng.1 : ℤ), ng.2⟩ else ⟨-(ng.1 : ℤ), ng.2⟩

/-- Numerator of `x` written over the power-of-two denominator `dyDen x`. -/
def dyNum (x : Fp) : ℤ := if 0 ≤ x.e then x.m * 2^(x.e.toNat) else x.m

/-- Power-of-two denominator for `x` (1 when the exponent is nonnegative). -/
def dyDen (x : Fp) : ℕ := if 0 ≤ x.e then 1 else 2^((-x.e).toNat)

/-- IEEE floating-point subtraction at precision `p`: the exact difference,
rounded once to `p` bits. -/
def fpSub (p : ℕ) (x y : Fp) : Fp :=
  let e := min x.e y.e
  let m := x.m * 2^((x.e - e).toNat) - y.m * 2^((y.e - e).toNat)
  if 0 ≤ e then roundRat p (m * 2^(e.toNat)) 1 else roundRat p m (2^((-e).toNat))

/-- `np.rint`: round `a / b` to the nearest integer, ties to even (the rule
is symmetric under negation, so the sign is split off). -/
def rintZ (a : ℤ) (b : ℕ) : ℤ :=
  let q := a.natAbs / b
  let r := a.natAbs % b
  let n := if b < 2*r then q + 1 else if 2*r < b then q
    else (if q % 2 = 0 then q else q + 1)
  if 0 ≤ a then (n : ℤ) else -(n : ℤ)

/-- `np.around(x, decimals=8)` on a float32 `x`: multiply by `10^8` in
float32, round to the nearest integral value (ties to even, exact in float32
for every magnitude in this trace), divide by `10^8` in float32. -/
def around8f32 (x : Fp) : Fp :=
  let t := roundRat 24 (dyNum x * 10^8) (dyDen x)
  let n := rintZ (dyNum t) (dyDen t)
  let ri := roundRat 24 n 1
  roundRat 24 (dyNum ri) (dyDen ri * 10^8)

/-- The Python float literal `0.1` (binary64). -/
def float64_tenth : Fp := roundRat 53 1 10

/-- `self.epsilon = 0.1 / 1000`, computed in binary64 in `__init__`: the
exact quotient of the binary64 `0.1` by 1000, rounded to 53 bits. -/
def float64_eps1000 : Fp := roundRat 53 (dyNum float64_tenth) (dyDen float64_tenth * 1000)

/-- One `reset` magnitude update after the first (`self.checkpoint_reward` is
an `np.float32` from then on): if the magnitude is positive, subtract
`epsilon` with a float32 result — numpy's value-based (1.x) and weak (2.x)
promotion rules give the identical float32 here — and apply
`np.around(·, 8)` in float32; otherwise the magnitude becomes `0.0`. -/
def f32resetStep (cr : Fp) : Fp :=
  if 0 < cr.m then around8f32 (fpSub 24 cr float64_eps1000) else ⟨0, 0⟩

/-- The magnitude after the first reset: `self.checkpoint_reward` is still the
Python float `0.1`, so the subtraction happens in binary64, the result is then
cast by `np.float32`, and `np.around(·, 8)` runs in float32. -/
def c1F32 : Fp :=
  if 0 < float64_tenth.m then
    let d64 := fpSub 53 float64_tenth float64_eps1000
    around8f32 (roundRat 24 (dyNum d64) (dyDen d64))
  else ⟨0, 0⟩

/-- The float32 checkpoint magnitude after `k` episode resets of a fresh
wrapper configured with `checkpoint_num_episodes = 1000`. -/
def crAfterF32 : ℕ → Fp
  | 0 => float64_tenth
  | n + 1 => (f32resetStep)^[n] c1F32

/-! ### Theorems -/

/-- Every threshold the collection loop compares against is positive, which is
what makes comparing squared distances against squared thresholds equivalent
to the source's comparison of the distance against the threshold. -/
theorem threshold_pos (num collected : ℕ) (h : collected < num) :
    0 < threshold num collected := by
  unfold threshold
  split
  · norm_num
  next hne =>
    have h2 : (collected : ℚ) ≤ (num : ℚ) - 1 := by
      have hcn : collected + 1 ≤ num := h
      have := (Nat.cast_le (α := ℚ)).mpr hcn
      push_cast at this ⊢
      linarith
    have hnum2 : (2 : ℚ) ≤ (num : ℚ) := by
      have : 2 ≤ num := by omega
      exact_mod_cast this
    have hden : (0 : ℚ) < (num : ℚ) - 1 := by linarith
    have hb : (8/10 : ℚ) / ((num : ℚ) - 1) * (collected : ℚ) ≤
        (8/10 : ℚ) / ((num : ℚ) - 1) * ((num : ℚ) - 1) := by
      apply mul_le_mul_of_nonneg_left h2
      positivity
    rw [div_mul_cancel₀] at hb
    · linarith
    · linarith

theorem applyOp_difficulty (s : DifficultyState) (op : DiffOp) (h : s.difficulty ≤ 1) :
    s.difficulty ≤ (applyOp s op).difficulty ∧ (applyOp s op).difficulty ≤ 1 := by
  cases op with
  | reset => exact ⟨le_refl _, h⟩
  | step r d =>
    cases d with
    | false => exact ⟨le_refl _, h⟩
    | true =>
      simp only [applyOp, DifficultyWrapper.step, if_true]
      split
      · split
        next hgt => exact ⟨h, le_refl _⟩
        next hle =>
          push_neg at hle
          exact ⟨le_of_lt (lt_add_of_pos_right s.difficulty (by norm_num)), hle⟩
      · exact ⟨le_refl _, h⟩

theorem applyOps_difficulty (s : DifficultyState) (ops : List DiffOp) (h : s.difficulty ≤ 1) :
    s.difficulty ≤ (applyOps s ops).difficulty ∧ (applyOps s ops).difficulty ≤ 1 := by
  induction ops generalizing s with
  | nil => exact ⟨le_refl _, h⟩
  | cons op rest ih =>
    have h1 := applyOp_difficulty s op h
    have h2 := ih (applyOp s op) h1.2
    exact ⟨le_trans h1.1 h2.1, h2.2⟩

theorem applyOps_append_single (s : DifficultyState) (ops : List DiffOp) (op : DiffOp) :
    applyOps s (ops ++ [op]) = applyOp (applyOps s ops) op := by
  simp [applyOps, List.foldl_append]

/-- C1 counterexample: stepping the wrapper from difficulty 1, an empty window
and accumulator 0 with `score_reward = 2` and `done = true` leaves the episode
accumulator at 2, not 0 — `step` never resets `raw_reward`. -/
theorem difficulty_step_done_keeps_accumulator :
    (DifficultyWrapper.step ⟨1, [], 0⟩ 2 true).raw_reward = 2 ∧ (2 : ℚ) ≠ 0 := by
  constructor
  · norm_num [DifficultyWrapper.step, dequePush3]
  · norm_num

/-- C1 (amended): on a `done` step the accumulator (old value plus this step's
score reward) is pushed into the window and kept — it is zeroed only by the
subsequent `reset` call — and the difficulty rises by 0.001 (clamped to 1.0)
with the window cleared exactly when the post-push window holds 3 values with
mean ≥ 1.1; in every other case the difficulty is unchanged and the window
keeps the pushed value. -/
theorem difficulty_step_done_spec (s : DifficultyState) (r : ℚ) :
    (DifficultyWrapper.step s r true).raw_reward = s.raw_reward + r ∧
    (DifficultyWrapper.reset (DifficultyWrapper.step s r true)).raw_reward = 0 ∧
    (if (dequePush3 s.raw_rewards (s.raw_reward + r)).length = 3 ∧
        (11 : ℚ)/10 ≤ (dequePush3 s.raw_rewards (s.raw_reward + r)).sum / 3 then
      (DifficultyWrapper.step s r true).difficulty
          = (if 1 < s.difficulty + 1/1000 then 1 else s.difficulty + 1/1000) ∧
        (DifficultyWrapper.step s r true).raw_rewards = []
    else
      (DifficultyWrapper.step s r true).difficulty = s.difficulty ∧
        (DifficultyWrapper.step s r true).raw_rewards
          = dequePush3 s.raw_rewards (s.raw_reward + r)) := by
  unfold DifficultyWrapper.step DifficultyWrapper.reset
  by_cases hcond : (dequePush3 s.raw_rewards (s.raw_reward + r)).length = 3 ∧
      (11 : ℚ)/10 ≤ (dequePush3 s.raw_rewards (s.raw_reward + r)).sum / 3
  · simp [hcond]
  · simp [hcond]

/-- C3: starting from any state whose difficulty is at most 1 (the configured
`initial_difficulty` lies in [0, 1]), after any sequence of `step`/`reset`
operations the difficulty has not decreased, does not decrease at the next
operation either, and never exceeds 1.0. -/
theorem difficulty_monotone_bounded (s : DifficultyState) (h : s.difficulty ≤ 1)
    (ops : List DiffOp) (op : DiffOp) :
    s.difficulty ≤ (applyOps s ops).difficulty ∧
    (applyOps s ops).difficulty ≤ (applyOps s (ops ++ [op])).difficulty ∧
    (applyOps s ops).difficulty ≤ 1 := by
  have h1 := applyOps_difficulty s ops h
  have h2 := applyOp_difficulty (applyOps s ops) op h1.2
  exact ⟨h1.1, by rw [applyOps_append_single]; exact h2.1, h1.2⟩

/-- Witness for C3 at difficulty 1/2 with a triggering episode then a reset. -/
theorem difficulty_monotone_bounded_witness :
    (1 : ℚ)/2 ≤ (applyOps ⟨1/2, [2, 2], 0⟩ [.step 2 true]).difficulty ∧
    (applyOps ⟨1/2, [2, 2], 0⟩ [.step 2 true]).difficulty
      ≤ (applyOps ⟨1/2, [2, 2], 0⟩ ([.step 2 true] ++ [.reset])).difficulty ∧
    (applyOps ⟨1/2, [2, 2], 0⟩ [.step 2 true]).difficulty ≤ 1 :=
  difficulty_monotone_bounded ⟨1/2, [2, 2], 0⟩ (by norm_num) [.step 2 true] .reset

/-- C8: the wrapper's `reset` installs a scenario builder carrying the current
difficulty and only then runs the underlying reset, so the episode about to
start plays at exactly the wrapper's current difficulty, whatever stale value
the previous configuration held; the wrapper state itself is reset as usual. -/
theorem difficulty_injected_before_reset (ρ : Type)
    (origBuild : ScenarioConfig ρ → ScenarioConfig ρ) (s : DifficultyState)
    (e : EnvState ρ) :
    (DifficultyWrapper.resetEnv ρ origBuild s e).2.config.right_team_difficulty
        = s.difficulty ∧
    (DifficultyWrapper.resetEnv ρ origBuild s e).1 = DifficultyWrapper.reset s := by
  constructor <;> rfl

theorem collectLoop_count_le_aux (num : ℕ) (cr dsq : ℚ) (i : ℕ) :
    ∀ (fuel : ℕ) (m : AgentMap) (acc : ℚ), num - mapGetD m i ≤ fuel →
      mapGetD (collectLoop num cr dsq m i acc).2 i ≤ max (mapGetD m i) num := by
  intro fuel
  induction fuel with
  | zero =>
    intro m acc hf
    rw [collectLoop]
    rw [if_neg (by omega)]
    exact le_max_left _ _
  | succ n ih =>
    intro m acc hf
    rw [collectLoop]
    split
    next hlt =>
      split
      · exact le_max_left _ _
      · have hrec := ih (mapSet m i (mapGetD m i + 1)) (acc + cr)
          (by rw [mapGetD_mapSet]; omega)
        rw [mapGetD_mapSet] at hrec
        omega
    next hge => exact le_max_left _ _

/-- The collection loop on a one-key dict whose (squared) distance is within
every (squared) threshold collects every remaining checkpoint: it terminates
with the count at `num` and the reward increased by one magnitude per
checkpoint collected. -/
theorem collectLoop_single (num : ℕ) (cr dsq : ℚ) (i : ℕ)
    (hd : ∀ k, k < num → dsq ≤ (threshold num k)^2) :
    ∀ (fuel c : ℕ) (acc : ℚ), c < num → num - c ≤ fuel →
      collectLoop num cr dsq [(i, c)] i acc
        = (acc + cr * ((num : ℚ) - (c : ℚ)), [(i, num)]) := by
  intro fuel
  induction fuel with
  | zero => intro c acc hc hf; omega
  | succ n ih =>
    intro c acc hc hf
    have hg : mapGetD [(i, c)] i = c := by simp [mapGetD]
    have hset : mapSet [(i, c)] i (c + 1) = [(i, c + 1)] := by simp [mapSet]
    rw [collectLoop]
    simp only [hg, hset]
    rw [if_pos hc, if_neg (not_lt.mpr (hd c hc))]
    by_cases hc1 : c + 1 < num
    · rw [ih (c + 1) (acc + cr) hc1 (by omega)]
      have harith : acc + cr + cr * ((num : ℚ) - ((c : ℚ) + 1))
          = acc + cr * ((num : ℚ) - (c : ℚ)) := by ring
      rw [Prod.mk.injEq]
      refine ⟨?_, rfl⟩
      push_cast
      ring
    · have hceq : c + 1 = num := by omega
      have hg1 : mapGetD [(i, c + 1)] i = c + 1 := by simp [mapGetD]
      rw [collectLoop]
      simp only [hg1]
      rw [hceq, if_neg (lt_irrefl num)]
      rw [Prod.mk.injEq]
      refine ⟨?_, rfl⟩
      rw [← hceq]
      push_cast
      ring

/-- C2: checkpoint collection for an eligible non-scoring agent. The general
threshold is `0.99 - (0.8/(10-1))·k` for collected count `k`, and exactly
`0.19` in the degenerate single-checkpoint configuration; while the count is
below 10 and the (squared) distance is within the current (squared) threshold
the loop awards the magnitude and bumps the count, otherwise it stops with the
reward accumulated so far; the resulting count never passes 10; and a single
call on a fresh wrapper with the ball at distance 0.05 from the goal (ball at
(0.96, 0.03)) collects all 10 checkpoints at once, for a bonus of 10 × 0.1. -/
theorem checkpoint_collection_spec (cr dsq acc : ℚ) (m : AgentMap) (i : ℕ)
    (hc : mapGetD m i ≤ 10) :
    (∀ k : ℕ, threshold 10 k = 99/100 - (8/10)/((10 : ℚ) - 1) * (k : ℚ)) ∧
    threshold 1 0 = 19/100 ∧
    (mapGetD m i < 10 → dsq ≤ (threshold 10 (mapGetD m i))^2 →
      collectLoop 10 cr dsq m i acc
        = collectLoop 10 cr dsq (mapSet m i (mapGetD m i + 1)) i (acc + cr)) ∧
    (¬ (mapGetD m i < 10 ∧ dsq ≤ (threshold 10 (mapGetD m i))^2) →
      collectLoop 10 cr dsq m i acc = (acc, m)) ∧
    mapGetD (collectLoop 10 cr dsq m i acc).2 i ≤ 10 ∧
    rewardAgent (CustomCheckpointRewardWrapper.init 1000) 0 0
        ⟨(24/25, 3/100), some 0, some 4, 4⟩ = (1, [(0, 10)]) := by
  refine ⟨?_, ?_, ?_, ?_, ?_, ?_⟩
  · intro k
    norm_num [threshold]
  · norm_num [threshold]
  · intro hlt hd
    rw [collectLoop]
    rw [if_pos hlt, if_neg (not_lt.mpr hd)]
  · intro hstop
    rw [not_and_or] at hstop
    rcases hstop with hstop | hstop
    · rw [collectLoop, if_neg hstop]
    · rw [collectLoop]
      split
      · rw [if_pos (not_le.mp hstop)]
      · rfl
  · have := collectLoop_count_le_aux 10 cr dsq i 10 m acc (by omega)
    omega
  · have hd : ∀ k, k < 10 → dist_sq (24/25, 3/100) ≤ (threshold 10 k)^2 := by
      intro k hk
      interval_cases k <;> norm_num [threshold, dist_sq]
    have hfirst : collectLoop 10 (1/10) (dist_sq (24/25, 3/100)) [] 0 0
        = collectLoop 10 (1/10) (dist_sq (24/25, 3/100)) [(0, 1)] 0 (0 + 1/10) := by
      rw [collectLoop]
      have hg0 : mapGetD [] 0 = 0 := rfl
      simp only [hg0]
      rw [if_pos (by norm_num), if_neg (not_lt.mpr (hd 0 (by norm_num)))]
      rfl
    have heval : rewardAgent (CustomCheckpointRewardWrapper.init 1000) 0 0
        ⟨(24/25, 3/100), some 0, some 4, 4⟩
        = collectLoop 10 (1/10) (dist_sq (24/25, 3/100)) [] 0 0 := by
      norm_num [rewardAgent, CustomCheckpointRewardWrapper.init, eligible]
    rw [heval, hfirst, collectLoop_single 10 (1/10) (dist_sq (24/25, 3/100)) 0 hd 9 1
      (0 + 1/10) (by norm_num) (by norm_num)]
    norm_num

/-- Witness for C2 on a fresh progress dict at distance 0.05. -/
theorem checkpoint_collection_spec_witness :
    mapGetD (collectLoop 10 (1/10) (1/400) [] 0 0).2 0 ≤ 10 :=
  (checkpoint_collection_spec (1/10) (1/400) 0 [] 0 (by norm_num [mapGetD])).2.2.2.2.1

/-- C4: goal fast-forward. When an agent's raw reward is exactly 1 the
transform pays `CheckpointMagnitude × (num_checkpoints − progress)` on top of
the raw reward and sets the agent's progress to `num_checkpoints`, which the
constructor fixes at 10; in particular an agent at progress 4 that scores
receives a bonus of 6 magnitudes and ends at progress 10. -/
theorem goal_fastforward (s : CheckpointState) (i : ℕ) (o : Obs) :
    (∀ episodes : ℕ,
      (CustomCheckpointRewardWrapper.init episodes).num_checkpoints = 10) ∧
    rewardAgent s i 1 o
      = (1 + s.checkpoint_reward
            * ((s.num_checkpoints : ℚ) - (mapGetD s.collected i : ℚ)),
         mapSet s.collected i s.num_checkpoints) ∧
    mapGetD (rewardAgent s i 1 o).2 i = s.num_checkpoints ∧
    (rewardAgent ⟨[(0, 4)], 10, s.checkpoint_reward, s.epsilon⟩ 0 1 o).1
      = 1 + s.checkpoint_reward * 6 ∧
    mapGetD (rewardAgent ⟨[(0, 4)], 10, s.checkpoint_reward, s.epsilon⟩ 0 1 o).2 0
      = 10 := by
  have hbody : ∀ (t : CheckpointState) (j : ℕ),
      rewardAgent t j 1 o
        = (1 + t.checkpoint_reward
              * ((t.num_checkpoints : ℚ) - (mapGetD t.collected j : ℚ)),
           mapSet t.collected j t.num_checkpoints) := by
    intro t j
    simp [rewardAgent]
  refine ⟨fun episodes => rfl, hbody s i, ?_, ?_, ?_⟩
  · rw [hbody s i]
    exact mapGetD_mapSet _ _ _
  · rw [hbody]
    have : mapGetD [(0, 4)] 0 = 4 := by simp [mapGetD]
    rw [this]
    norm_num
  · rw [hbody]
    exact mapGetD_mapSet [(0, 4)] 0 10

/-- C7: a non-scoring agent that is ineligible — the observation lacks
`ball_owned_team`, or it differs from the agent's team id 0, or it lacks
`ball_owned_player`, or that differs from `active` — receives zero checkpoint
bonus whatever the ball position: the shaped reward is the raw reward and the
progress dict is untouched. -/
theorem ineligible_agent_unchanged (s : CheckpointState) (i : ℕ) (r : ℚ) (o : Obs)
    (hr : r ≠ 1)
    (h : o.ball_owned_team = none ∨ o.ball_owned_team ≠ some 0 ∨
         o.ball_owned_player = none ∨ o.ball_owned_player ≠ some o.active) :
    rewardAgent s i r o = (r, s.collected) := by
  have he : eligible o = false := by
    unfold eligible
    cases ht : o.ball_owned_team with
    | none => rfl
    | some t =>
      cases hp : o.ball_owned_player with
      | none => rfl
      | some p =>
        rcases h with h | h | h | h
        · rw [ht] at h
          exact absurd h (by simp)
        · rw [ht] at h
          have htne : t ≠ 0 := fun hteq => h (by rw [hteq])
          simp [htne]
        · rw [hp] at h
          exact absurd h (by simp)
        · rw [hp] at h
          have hpne : p ≠ o.active := fun hpeq => h (by rw [hpeq])
          simp [hpne]
  simp [rewardAgent, hr, he]

/-- Witness for C7: an observation with both ownership keys missing, ball at
midfield, raw reward 0. -/
theorem ineligible_agent_unchanged_witness :
    rewardAgent (CustomCheckpointRewardWrapper.init 5) 3 0 ⟨(1/2, 0), none, none, 0⟩
      = (0, (CustomCheckpointRewardWrapper.init 5).collected) :=
  ineligible_agent_unchanged (CustomCheckpointRewardWrapper.init 5) 3 0
    ⟨(1/2, 0), none, none, 0⟩ (by norm_num) (Or.inl rfl)

/-- C10: the transform wraps the scalar raw reward into a one-element list and
asserts its length equals the number of per-agent observations, so it succeeds
exactly when the base environment reports a single agent (in which case agent
index 0 is shaped by the per-agent body) and the assertion fails for every
other observation-list length. -/
theorem reward_requires_single_agent (s : CheckpointState) (r : ℚ)
    (obs : List Obs) :
    ((CustomCheckpointRewardWrapper.reward s r (some obs)).isSome
        ↔ obs.length = 1) ∧
    (∀ o : Obs, CustomCheckpointRewardWrapper.reward s r (some [o])
        = some (rewardAgent s 0 r o)) := by
  constructor
  · by_cases h1 : obs.length = 1
    · simp [CustomCheckpointRewardWrapper.reward, h1]
    · simp [CustomCheckpointRewardWrapper.reward, h1]
  · intro o
    rfl

/-- C6: `get_state` writes the current progress dict into the container under
the wrapper's fixed key and passes the container on to the base environment;
`set_state` on a fresh instance reads it back, so the round trip restores an
identical progress mapping (the empty mapping included, since `s` ranges over
all states). -/
theorem state_roundtrip (σ : Type) (baseGet baseSet : σ → σ)
    (s fresh : CheckpointState) (c : StateContainer σ) :
    CustomCheckpointRewardWrapper.set_state σ baseSet fresh
        (CustomCheckpointRewardWrapper.get_state σ baseGet s c)
      = some ({ fresh with collected := s.collected },
              { wrapperEntry := some s.collected,
                base := baseSet (baseGet c.base) }) ∧
    (CustomCheckpointRewardWrapper.get_state σ baseGet s c).wrapperEntry
      = some s.collected := by
  constructor <;> rfl

theorem crAfterF32_succ (n : ℕ) :
    crAfterF32 (n + 2) = f32resetStep (crAfterF32 (n + 1)) := by
  show (f32resetStep)^[n + 1] c1F32 = f32resetStep ((f32resetStep)^[n] c1F32)
  rw [Function.iterate_succ_apply']

set_option maxRecDepth 100000 in
theorem f32chunk1 : (f32resetStep)^[100] c1F32 = ⟨12066163, -27⟩ := by decide

set_option maxRecDepth 100000 in
theorem f32chunk2 : (f32resetStep)^[100] ⟨12066163, -27⟩ = ⟨10723978, -27⟩ := by decide

set_option maxRecDepth 100000 in
theorem f32chunk3 : (f32resetStep)^[100] ⟨10723978, -27⟩ = ⟨9381800, -27⟩ := by decide

set_option maxRecDepth 100000 in
theorem f32chunk4 : (f32resetStep)^[100] ⟨9381800, -27⟩ = ⟨16079246, -28⟩ := by decide

set_option maxRecDepth 100000 in
theorem f32chunk5 : (f32resetStep)^[100] ⟨16079246, -28⟩ = ⟨13394892, -28⟩ := by decide

set_option maxRecDepth 100000 in
theorem f32chunk6 : (f32resetStep)^[100] ⟨13394892, -28⟩ = ⟨10710537, -28⟩ := by decide

set_option maxRecDepth 100000 in
theorem f32chunk7 : (f32resetStep)^[100] ⟨10710537, -28⟩ = ⟨16052365, -29⟩ := by decide

set_option maxRecDepth 100000 in
theorem f32chunk8 : (f32resetStep)^[100] ⟨16052365, -29⟩ = ⟨10683656, -29⟩ := by decide

set_option maxRecDepth 100000 in
theorem f32chunk9 : (f32resetStep)^[100] ⟨10683656, -29⟩ = ⟨10629894, -30⟩ := by decide

set_option maxRecDepth 100000 in
theorem f32chunk10 : (f32resetStep)^[99] ⟨10629894, -30⟩ = ⟨-9851624, -46⟩ := by decide

/-- The float32 magnitude after the 1000th reset of a budget-1000 wrapper:
`-9851624 · 2^(-46)`, about `-1.3999999737e-7` — not 0. -/
theorem crAfterF32_1000 : crAfterF32 1000 = ⟨-9851624, -46⟩ := by
  show (f32resetStep)^[999] c1F32 = _
  rw [show (999 : ℕ) = 99 + 900 by norm_num, Function.iterate_add_apply]
  rw [show (900 : ℕ) = 100 + 800 by norm_num, Function.iterate_add_apply]
  rw [show (800 : ℕ) = 100 + 700 by norm_num, Function.iterate_add_apply]
  rw [show (700 : ℕ) = 100 + 600 by norm_num, Function.iterate_add_apply]
  rw [show (600 : ℕ) = 100 + 500 by norm_num, Function.iterate_add_apply]
  rw [show (500 : ℕ) = 100 + 400 by norm_num, Function.iterate_add_apply]
  rw [show (400 : ℕ) = 100 + 300 by norm_num, Function.iterate_add_apply]
  rw [show (300 : ℕ) = 100 + 200 by norm_num, Function.iterate_add_apply]
  rw [show (200 : ℕ) = 100 + 100 by norm_num, Function.iterate_add_apply]
  rw [f32chunk1, f32chunk2, f32chunk3, f32chunk4, f32chunk5, f32chunk6,
    f32chunk7, f32chunk8, f32chunk9, f32chunk10]

/-- C9 counterexample: in exact IEEE float32/float64 semantics (the explicit
`np.float32` cast of line 117 included), the magnitude of a fresh budget-1000
wrapper after 1000 episode resets is strictly negative — not exactly 0.0:
float32 quantization near 0.1 (ulp about 7.45e-9) makes the decay drift off
the exact multiples of 1e-4. -/
theorem magnitude_f32_drift_counterexample :
    Fp.toRat (crAfterF32 1000) < 0 ∧ Fp.toRat (crAfterF32 1000) ≠ 0 := by
  rw [crAfterF32_1000]
  have h2 : (0 : ℚ) < (2 : ℚ)^(-46 : ℤ) := zpow_pos (by norm_num) _
  have hneg : Fp.toRat ⟨-9851624, -46⟩ < 0 := by
    simp only [Fp.toRat]
    exact mul_neg_of_neg_of_pos (by norm_num) h2
  exact ⟨hneg, hneg.ne⟩

/-- C9 (amended): with the budget set to 1000 episodes the float32 magnitude
after 1000 resets is `-9851624 · 2^(-46)` (about `-1.3999999737e-7`), strictly
negative rather than 0; it is exactly 0.0 after 1001 resets — the reset after
the negative overshoot — and remains exactly 0.0 on every subsequent reset. -/
theorem magnitude_f32_zero_at_1001 (j : ℕ) :
    crAfterF32 1000 = ⟨-9851624, -46⟩ ∧
    Fp.toRat ⟨-9851624, -46⟩ < 0 ∧
    crAfterF32 1001 = ⟨0, 0⟩ ∧
    crAfterF32 (1001 + j) = ⟨0, 0⟩ := by
  have h1001 : crAfterF32 1001 = ⟨0, 0⟩ := by
    rw [show (1001 : ℕ) = 999 + 2 by norm_num, crAfterF32_succ 999,
      show (999 : ℕ) + 1 = 1000 by norm_num, crAfterF32_1000]
    decide
  refine ⟨crAfterF32_1000, ?_, h1001, ?_⟩
  · have h2 : (0 : ℚ) < (2 : ℚ)^(-46 : ℤ) := zpow_pos (by norm_num) _
    simp only [Fp.toRat]
    exact mul_neg_of_neg_of_pos (by norm_num) h2
  · induction j with
    | zero => simpa using h1001
    | succ n ih =>
      rw [show 1001 + (n + 1) = (1000 + n) + 2 by omega, crAfterF32_succ (1000 + n),
        show (1000 + n) + 1 = 1001 + n by omega, ih]
      decide
